import Mathlib

/-!
Shallow embedding of the metrics storage engine (github.com/Heidric/metrics):
the retry policy (`withRetry`), the volatile in-memory store with file journal
(`Store`), the service-level batch validation (`MetricsService.UpdateMetricsBatch`)
and the relational store (`PostgresStore`).  Go errors are modelled by the
inductive `DBErr`; impure inputs (statement failures, connection failures,
file contents) are supplied as explicit environment parameters; machine
integers (`int64`) are modelled as `Int` with explicit wrap-around where the
Go code performs native addition.  OS-level file-write failures and real time
(sleep durations) are outside the model.
-/

namespace Metrics

/-- Errors of the Go code, one constructor per distinct error source.
`connDone`/`txDone` are the `database/sql` sentinels, `pgError` is a
`*pgconn.PgError` carrying an SQLSTATE code and a message, `wrapped` models
`fmt.Errorf("...: %w", err)`. -/
inductive DBErr where
  | connDone
  | txDone
  | pgError (code : String) (msg : String)
  | notConnected
  | keyNotFound
  | decodeFailed
  | unsupportedType (mtype : String)
  | wrapped (ctx : String) (inner : DBErr)
  | other (msg : String)
deriving DecidableEq, Repr

/-- The Go `err.Error()` text, used by the connection-class string test. -/
def DBErr.text : DBErr → String
  | .connDone => "sql: connection is already closed"
  | .txDone => "sql: transaction has already been committed or rolled back"
  | .pgError _ msg => msg
  | .notConnected => "database not connected"
  | .keyNotFound => "key not found"
  | .decodeFailed => "failed to decode data"
  | .unsupportedType mtype => "unsupported metric type: " ++ mtype
  | .wrapped ctx inner => ctx ++ inner.text
  | .other msg => msg

/-- Substring test, modelling Go `strings.Contains`. -/
def containsSub (needle haystack : String) : Bool :=
  (haystack.splitOn needle).length > 1

/-- `errors.As(err, &pgErr)`: the SQLSTATE code of the innermost
`*pgconn.PgError`, unwrapping `fmt.Errorf("%w")` wrappers. -/
def DBErr.pgCode : DBErr → Option String
  | .pgError code _ => some code
  | .wrapped _ inner => inner.pgCode
  | _ => none

/-- `isRetriable` from the retry module: true exactly for the pgerrcode
connection classes 08000 (ConnectionException), 08003 (ConnectionDoesNotExist)
and 08006 (ConnectionFailure). -/
def isRetriable (e : DBErr) : Bool :=
  match e.pgCode with
  | some code => code = "08000" || code = "08003" || code = "08006"
  | none => false

/-- The connection-class test of `PostgresStore.SetGauge`:
`err == sql.ErrConnDone || err == sql.ErrTxDone ||
strings.Contains(strings.ToLower(err.Error()), "connection")`. -/
def connClass (e : DBErr) : Bool :=
  match e with
  | .connDone => true
  | .txDone => true
  | e => containsSub "connection" e.text.toLower

/-- `retryDelays = []time.Duration{1s, 3s, 5s}` (seconds; the sleep itself
is not modelled, only the schedule's length drives the attempt count). -/
def retryDelays : List Nat := [1, 3, 5]

/-- The loop of `withRetry`: `attempt` counts completed calls of `fn`
(the impure closure is modelled as a function of the invocation index),
`remaining` is `len(retryDelays) - attempt`.  Returns the final error and
the number of times `fn` was invoked. -/
def withRetryLoop (fn : Nat → Option DBErr) (isR : DBErr → Bool) :
    Nat → Nat → Option DBErr × Nat
  | attempt, remaining =>
    match fn attempt with
    | none => (none, attempt + 1)
    | some e =>
      if isR e then
        match remaining with
        | 0 => (some e, attempt + 1)
        | r + 1 => withRetryLoop fn isR (attempt + 1) r
      else (some e, attempt + 1)

/-- `withRetry(fn, isRetriable)`: up to `1 + len(retryDelays)` attempts. -/
def withRetry (fn : Nat → Option DBErr) (isR : DBErr → Bool) : Option DBErr × Nat :=
  withRetryLoop fn isR 0 retryDelays.length

/-- State-threading variant of the same loop, for the relational store
whose closures mutate the store between attempts. -/
def withRetrySLoop {σ : Type} (fn : Nat → σ → σ × Option DBErr) (isR : DBErr → Bool) :
    Nat → Nat → σ → σ × Option DBErr
  | attempt, remaining, st =>
    match fn attempt st with
    | (st1, none) => (st1, none)
    | (st1, some e) =>
      if isR e then
        match remaining with
        | 0 => (st1, some e)
        | r + 1 => withRetrySLoop fn isR (attempt + 1) r st1
      else (st1, some e)

/-- `withRetry` over a stateful operation. -/
def withRetryS {σ : Type} (fn : Nat → σ → σ × Option DBErr) (isR : DBErr → Bool)
    (st : σ) : σ × Option DBErr :=
  withRetrySLoop fn isR 0 retryDelays.length st

/-- Two's-complement wrap of an integer into the `int64` range, the effect
of native Go `int64` addition. -/
def wrap64 (n : Int) : Int := (n + 2 ^ 63) % 2 ^ 64 - 2 ^ 63

theorem wrap64_add_left (a b : Int) : wrap64 (wrap64 a + b) = wrap64 (a + b) := by
  unfold wrap64
  omega

theorem wrap64_eq_self {n : Int} (h1 : -(2 ^ 63) ≤ n) (h2 : n < 2 ^ 63) :
    wrap64 n = n := by
  unfold wrap64
  omega

/-! ### Claim C2: retry policy attempt counts -/

/-- C2: with an operation that always errors and a predicate that reports
every produced error retriable, `withRetry` invokes the operation exactly
4 times (1 initial + 3 retries) and returns the error of the last attempt;
with a predicate reporting the first error non-retriable, the operation is
invoked exactly once and that error is returned. -/
theorem withRetry_attempt_counts (fn : Nat → Option DBErr) (isR : DBErr → Bool) :
    ((∀ n, fn n ≠ none) → (∀ n e, fn n = some e → isR e = true) →
      withRetry fn isR = (fn 3, 4)) ∧
    (∀ e, fn 0 = some e → isR e = false → withRetry fn isR = (some e, 1)) := by
  constructor
  · intro hErr hRet
    obtain ⟨e0, h0⟩ : ∃ e, fn 0 = some e := Option.ne_none_iff_exists'.mp (hErr 0)
    obtain ⟨e1, h1⟩ : ∃ e, fn 1 = some e := Option.ne_none_iff_exists'.mp (hErr 1)
    obtain ⟨e2, h2⟩ : ∃ e, fn 2 = some e := Option.ne_none_iff_exists'.mp (hErr 2)
    obtain ⟨e3, h3⟩ : ∃ e, fn 3 = some e := Option.ne_none_iff_exists'.mp (hErr 3)
    simp [withRetry, retryDelays, withRetryLoop, h0, h1, h2, h3,
      hRet 0 e0 h0, hRet 1 e1 h1, hRet 2 e2 h2, hRet 3 e3 h3]
  · intro e h0 hR
    simp [withRetry, retryDelays, withRetryLoop, h0, hR]

/-- Witness for C2 at a concrete always-failing operation. -/
theorem withRetry_attempt_counts_witness :
    withRetry (fun _ => some .connDone) (fun _ => true) = (some .connDone, 4) ∧
    withRetry (fun _ => some .connDone) (fun _ => false) = (some .connDone, 1) := by
  constructor
  · exact (withRetry_attempt_counts (fun _ => some .connDone) (fun _ => true)).1
      (fun _ => by simp) (fun _ _ _ => rfl)
  · exact (withRetry_attempt_counts (fun _ => some .connDone) (fun _ => false)).2
      .connDone rfl rfl

/-! ### Data model: `model.Metrics`

Gauge values (`float64`) are never computed with, only stored and compared,
so they are modelled by an arbitrary type parameter `F`. -/

/-- `model.GaugeType`. -/
def GaugeType : String := "gauge"

/-- `model.CounterType`. -/
def CounterType : String := "counter"

/-- `model.Metrics`: one metric-update item.  `Delta`/`Value` are the
nullable pointers of the Go struct. -/
structure MetricItem (F : Type) where
  ID : String
  MType : String
  Delta : Option Int
  Value : Option F

/-! ### Volatile `Store` with file journal (internal/db/db.go) -/

/-- A Go map, `nil`-free: absent keys map to `none`. -/
def mapSet {α : Type} (m : String → Option α) (k : String) (v : α) :
    String → Option α :=
  fun q => if q = k then some v else m q

/-- Decoded content of the persistence file: either a well-formed
`{"gauges": ..., "counters": ...}` object, or JSON the decoder rejects. -/
inductive FileData (F : Type) where
  | valid (gauges : String → Option F) (counters : String → Option Int)
  | malformed

/-- The file system visible to the store: path to file content. -/
def FileSys (F : Type) : Type := String → Option (FileData F)

/-- `os.Create` + encode: (over)write the file.  OS write failures are
outside the model: writes always succeed. -/
def fsWrite {F : Type} (fs : FileSys F) (path : String) (d : FileData F) :
    FileSys F :=
  fun q => if q = path then some d else fs q

/-- The in-memory store: two maps, the configured file path and the
persistence mode.  The mutexes, ticker and close channel guard concurrency
and are not part of the sequential model. -/
structure Store (F : Type) where
  gauges : String → Option F
  counters : String → Option Int
  filePath : String
  storeInterval : Nat
  syncMode : Bool
  closed : Bool

/-- The store as built at the top of `NewStore`, before hydration. -/
def initStore (F : Type) (filePath : String) (storeInterval : Nat) : Store F :=
  { gauges := fun _ => none
    counters := fun _ => none
    filePath := filePath
    storeInterval := storeInterval
    syncMode := storeInterval = 0
    closed := false }

/-- `Store.LoadFromFile`: empty path or missing file succeed without
touching the maps; a malformed file is a decode error; a well-formed file
replaces both maps. -/
def loadFromFile {F : Type} (s : Store F) (fs : FileSys F) :
    Except DBErr (Store F) :=
  if s.filePath = "" then .ok s
  else
    match fs s.filePath with
    | none => .ok s
    | some .malformed => .error (.wrapped "failed to decode data: " .decodeFailed)
    | some (.valid g c) => .ok { s with gauges := g, counters := c }

/-- `NewStore`: builds the empty store, hydrates from the file, and on a
hydration error only records a warning (`fmt.Printf("Warning: ...")`) —
the store is returned either way. -/
def newStore (F : Type) (fs : FileSys F) (filePath : String)
    (storeInterval : Nat) : Store F × Option DBErr :=
  match loadFromFile (initStore F filePath storeInterval) fs with
  | .ok s => (s, none)
  | .error e => (initStore F filePath storeInterval, some e)

/-- `Store.saveToFile`: no-op on an empty path, otherwise serializes both
maps to the configured file. -/
def saveToFileFs {F : Type} (s : Store F) (fs : FileSys F) : FileSys F :=
  if s.filePath = "" then fs
  else fsWrite fs s.filePath (.valid s.gauges s.counters)

/-- `Store.SetGauge`: overwrite in memory; in sync mode with a configured
path, flush the whole state to the file. -/
def setGauge {F : Type} (s : Store F) (fs : FileSys F) (name : String)
    (value : F) : Store F × FileSys F × Option DBErr :=
  let s1 := { s with gauges := mapSet s.gauges name value }
  if s.syncMode ∧ s.filePath ≠ "" then (s1, saveToFileFs s1 fs, none)
  else (s1, fs, none)

/-- `Store.GetGauge`. -/
def getGauge {F : Type} (s : Store F) (name : String) : Except DBErr F :=
  match s.gauges name with
  | some v => .ok v
  | none => .error .keyNotFound

/-- `Store.SetCounter`: read-modify-write `current + value` with native
`int64` addition (wrap-around), starting from 0 when absent; same flush
behavior as `SetGauge`. -/
def setCounter {F : Type} (s : Store F) (fs : FileSys F) (name : String)
    (value : Int) : Store F × FileSys F × Option DBErr :=
  let current := (s.counters name).getD 0
  let s1 := { s with counters := mapSet s.counters name (wrap64 (current + value)) }
  if s.syncMode ∧ s.filePath ≠ "" then (s1, saveToFileFs s1 fs, none)
  else (s1, fs, none)

/-- `Store.GetCounter`. -/
def getCounter {F : Type} (s : Store F) (name : String) : Except DBErr Int :=
  match s.counters name with
  | some v => .ok v
  | none => .error .keyNotFound

/-- `Store.GetAll`: copies of both maps (copies of pure maps are the maps
themselves). -/
def getAll {F : Type} (s : Store F) :
    (String → Option F) × (String → Option Int) :=
  (s.gauges, s.counters)

/-- `Store.Close`: mark closed, stop the ticker, final flush. -/
def closeStore {F : Type} (s : Store F) (fs : FileSys F) :
    Store F × FileSys F × Option DBErr :=
  let s1 := { s with closed := true }
  (s1, saveToFileFs s1 fs, none)

/-- The loop of `Store.UpdateMetricsBatch`: gauge items with a `nil` value
and counter items with a `nil` delta are skipped; a gauge item overwrites,
a counter item accumulates (native `int64` addition onto a zero default);
an unsupported kind aborts with an error, leaving earlier effects in place. -/
def storeBatchLoop {F : Type} (s : Store F) :
    List (MetricItem F) → Store F × Option DBErr
  | [] => (s, none)
  | m :: rest =>
    if m.MType = GaugeType then
      match m.Value with
      | none => storeBatchLoop s rest
      | some v => storeBatchLoop { s with gauges := mapSet s.gauges m.ID v } rest
    else if m.MType = CounterType then
      match m.Delta with
      | none => storeBatchLoop s rest
      | some d =>
        storeBatchLoop
          { s with counters :=
              mapSet s.counters m.ID (wrap64 ((s.counters m.ID).getD 0 + d)) } rest
    else (s, some (.unsupportedType m.MType))

/-- `Store.UpdateMetricsBatch`: run the loop; on success, flush in sync
mode with a configured path; on error return without flushing. -/
def storeUpdateMetricsBatch {F : Type} (s : Store F) (fs : FileSys F)
    (items : List (MetricItem F)) : Store F × FileSys F × Option DBErr :=
  match storeBatchLoop s items with
  | (s1, some e) => (s1, fs, some e)
  | (s1, none) =>
    if s.syncMode ∧ s.filePath ≠ "" then (s1, saveToFileFs s1 fs, none)
    else (s1, fs, none)

/-- `Store.Ping`: always succeeds. -/
def storePing {F : Type} (_ : Store F) : Option DBErr := none

/-! ### Claim C1: counter accumulation in the volatile store -/

/-- A sequence of `SetCounter(name, d)` calls, threading store and file
system. -/
def setCounterSeq {F : Type} (s : Store F) (fs : FileSys F) (name : String) :
    List Int → Store F × FileSys F
  | [] => (s, fs)
  | d :: ds =>
    let r := setCounter s fs name d
    setCounterSeq r.1 r.2.1 name ds

theorem setCounter_fst {F : Type} (s : Store F) (fs : FileSys F)
    (name : String) (value : Int) :
    (setCounter s fs name value).1 =
      { s with counters :=
          mapSet s.counters name (wrap64 ((s.counters name).getD 0 + value)) } := by
  unfold setCounter
  split <;> rfl

theorem setCounterSeq_counters {F : Type} (name : String) :
    ∀ (ds : List Int) (s : Store F) (fs : FileSys F) (c : Int),
      s.counters name = some (wrap64 c) →
      ((setCounterSeq s fs name ds).1).counters name = some (wrap64 (c + ds.sum)) := by
  intro ds
  induction ds with
  | nil => intro s fs c hc; simpa [setCounterSeq] using hc
  | cons d ds ih =>
    intro s fs c hc
    have hstep :
        ((setCounter s fs name d).1).counters name = some (wrap64 (c + d)) := by
      rw [setCounter_fst]
      simp [mapSet, hc, wrap64_add_left]
    calc ((setCounterSeq s fs name (d :: ds)).1).counters name
        = ((setCounterSeq (setCounter s fs name d).1
            (setCounter s fs name d).2.1 name ds).1).counters name := rfl
      _ = some (wrap64 ((c + d) + ds.sum)) := ih _ _ _ hstep
      _ = some (wrap64 (c + (d :: ds).sum)) := by
          rw [List.sum_cons, add_assoc]

/-- C1: from a store where `name` has no counter, a sequence of
`SetCounter(name, d1) … SetCounter(name, dn)` (n ≥ 1, no intervening batch)
makes `GetCounter(name)` return `Σdi` — exactly, whenever the `int64` sum
does not overflow (Go adds with native wrap-around). -/
theorem setCounter_accumulation (F : Type) (s : Store F) (fs : FileSys F)
    (name : String) (ds : List Int)
    (habs : s.counters name = none) (hne : ds ≠ [])
    (hlo : -(2 ^ 63) ≤ ds.sum) (hhi : ds.sum < 2 ^ 63) :
    getCounter (setCounterSeq s fs name ds).1 name = .ok ds.sum := by
  cases ds with
  | nil => exact absurd rfl hne
  | cons d ds =>
    have hstep :
        ((setCounter s fs name d).1).counters name = some (wrap64 d) := by
      rw [setCounter_fst]
      simp [mapSet, habs]
    have hall :
        ((setCounterSeq s fs name (d :: ds)).1).counters name =
          some (wrap64 (d + ds.sum)) := by
      calc ((setCounterSeq s fs name (d :: ds)).1).counters name
          = ((setCounterSeq (setCounter s fs name d).1
              (setCounter s fs name d).2.1 name ds).1).counters name := rfl
        _ = some (wrap64 (d + ds.sum)) := setCounterSeq_counters name ds _ _ d hstep
    have hsum : (d :: ds).sum = d + ds.sum := List.sum_cons
    rw [getCounter, hall, hsum, wrap64_eq_self (hsum ▸ hlo) (hsum ▸ hhi)]

/-- Witness for C1: `SetCounter("hits",10)` then `SetCounter("hits",5)` gives
`GetCounter("hits") = 15` on a fresh store. -/
theorem setCounter_accumulation_witness :
    getCounter
      (setCounterSeq (initStore Int "" 0) (fun _ => none) "hits" [10, 5]).1
      "hits" = .ok 15 := by
  have h := setCounter_accumulation Int (initStore Int "" 0) (fun _ => none)
    "hits" [10, 5] rfl (by decide) (by decide) (by decide)
  simpa using h

/-! ### Claim C6: hydration error policy of `NewStore` -/

/-- A file system holding malformed JSON at `metrics.json`. -/
def fsMalformed : FileSys Int :=
  fun p => if p = "metrics.json" then some .malformed else none

/-- Counterexample to C6 as stated: constructing a volatile store over a
malformed persistence file is NOT fatal — `NewStore` returns the store with
empty maps (the decode error is only a recorded warning), and the store is
fully usable afterwards. -/
theorem newStore_malformed_counterexample :
    (newStore Int fsMalformed "metrics.json" 0).2 =
      some (.wrapped "failed to decode data: " .decodeFailed) ∧
    (newStore Int fsMalformed "metrics.json" 0).1 = initStore Int "metrics.json" 0 ∧
    getCounter
      (setCounter (newStore Int fsMalformed "metrics.json" 0).1 fsMalformed
        "hits" 7).1 "hits" = .ok 7 := by
  refine ⟨rfl, rfl, ?_⟩
  have : wrap64 7 = 7 := by decide
  simp [newStore, loadFromFile, initStore, fsMalformed, setCounter_fst,
    getCounter, mapSet, this]

/-- C6 amended: with a configured file path, a missing file is not an error
(construction succeeds with empty maps and no warning); a malformed file
makes `LoadFromFile` fail with a decode error, but `NewStore` swallows that
error into a warning and still returns the usable store with empty maps. -/
theorem newStore_hydration_error_policy (F : Type) (fs : FileSys F)
    (path : String) (si : Nat) (hpath : path ≠ "") :
    (fs path = none → newStore F fs path si = (initStore F path si, none)) ∧
    (fs path = some .malformed →
      loadFromFile (initStore F path si) fs =
        .error (.wrapped "failed to decode data: " .decodeFailed) ∧
      newStore F fs path si =
        (initStore F path si,
          some (.wrapped "failed to decode data: " .decodeFailed))) := by
  constructor
  · intro hmiss
    simp [newStore, loadFromFile, initStore, hpath, hmiss]
  · intro hmal
    have hload : loadFromFile (initStore F path si) fs =
        .error (.wrapped "failed to decode data: " .decodeFailed) := by
      simp [loadFromFile, initStore, hpath, hmal]
    exact ⟨hload, by simp [newStore, hload]⟩

/-- Witness for C6 (amended) at a missing file and at a malformed file. -/
theorem newStore_hydration_error_policy_witness :
    newStore Int (fun _ => none) "a.json" 0 = (initStore Int "a.json" 0, none) ∧
    newStore Int fsMalformed "metrics.json" 0 =
      (initStore Int "metrics.json" 0,
        some (.wrapped "failed to decode data: " .decodeFailed)) := by
  constructor
  · exact (newStore_hydration_error_policy Int (fun _ => none) "a.json" 0
      (by decide)).1 rfl
  · exact ((newStore_hydration_error_policy Int fsMalformed "metrics.json" 0
      (by decide)).2 rfl).2

/-! ### Claim C7: persistence round-trip -/

/-- C7: for any store state with a configured file path, `Close()` flushes
without error, and a new store constructed over the resulting file system
with the same path hydrates without warning and reports exactly the same
`GetAll()` contents. -/
theorem store_file_roundtrip (F : Type) (s : Store F) (fs : FileSys F)
    (si2 : Nat) (hpath : s.filePath ≠ "") :
    (closeStore s fs).2.2 = none ∧
    (newStore F (closeStore s fs).2.1 s.filePath si2).2 = none ∧
    getAll (newStore F (closeStore s fs).2.1 s.filePath si2).1 = getAll s := by
  refine ⟨rfl, ?_, ?_⟩ <;>
    simp [closeStore, saveToFileFs, fsWrite, newStore, loadFromFile, initStore,
      getAll, hpath]

/-- A store holding one counter and one gauge, built by writes over a fresh
store journaling to `m.json`. -/
def sampleStore : Store Int :=
  (setGauge (setCounter (initStore Int "m.json" 0) (fun _ => none) "hits" 5).1
    (fun _ => none) "temp" 2).1

/-- Witness for C7 at `sampleStore`. -/
theorem store_file_roundtrip_witness :
    (closeStore sampleStore (fun _ => none)).2.2 = none ∧
    (newStore Int (closeStore sampleStore (fun _ => none)).2.1
      sampleStore.filePath 7).2 = none ∧
    getAll (newStore Int (closeStore sampleStore (fun _ => none)).2.1
      sampleStore.filePath 7).1 = getAll sampleStore :=
  store_file_roundtrip Int sampleStore (fun _ => none) 7 (by decide)

/-! ### Claim C10: direct volatile batch is non-atomic -/

theorem storeBatchLoop_append_bad {F : Type} (bad : MetricItem F)
    (post : List (MetricItem F))
    (hbad1 : bad.MType ≠ GaugeType) (hbad2 : bad.MType ≠ CounterType) :
    ∀ (pre : List (MetricItem F)) (s : Store F),
      (∀ m ∈ pre, m.MType = GaugeType ∨ m.MType = CounterType) →
      (storeBatchLoop s pre).2 = none ∧
      storeBatchLoop s (pre ++ bad :: post) =
        ((storeBatchLoop s pre).1, some (.unsupportedType bad.MType)) := by
  intro pre
  induction pre with
  | nil =>
    intro s _
    refine ⟨rfl, ?_⟩
    simp [storeBatchLoop, hbad1, hbad2]
  | cons m pre ih =>
    intro s hsup
    have hm := hsup m (List.mem_cons_self m pre)
    have hrest : ∀ x ∈ pre, x.MType = GaugeType ∨ x.MType = CounterType :=
      fun x hx => hsup x (List.mem_cons_of_mem m hx)
    have hlist : (m :: pre) ++ bad :: post = m :: (pre ++ bad :: post) := rfl
    rw [hlist]
    by_cases hg : m.MType = GaugeType
    · cases hv : m.Value with
      | none =>
        have h := ih s hrest
        exact ⟨by simpa [storeBatchLoop, hg, hv] using h.1,
          by simpa [storeBatchLoop, hg, hv] using h.2⟩
      | some v =>
        have h := ih ({ s with gauges := mapSet s.gauges m.ID v }) hrest
        exact ⟨by simpa [storeBatchLoop, hg, hv] using h.1,
          by simpa [storeBatchLoop, hg, hv] using h.2⟩
    · have hc : m.MType = CounterType := hm.resolve_left hg
      cases hd : m.Delta with
      | none =>
        have h := ih s hrest
        exact ⟨by simpa [storeBatchLoop, hg, hc, hd] using h.1,
          by simpa [storeBatchLoop, hg, hc, hd] using h.2⟩
      | some d =>
        have h := ih
          ({ s with counters := mapSet s.counters m.ID (wrap64 ((s.counters m.ID).getD 0 + d)) })
          hrest
        exact ⟨by simpa [storeBatchLoop, hg, hc, hd] using h.1,
          by simpa [storeBatchLoop, hg, hc, hd] using h.2⟩

/-- C10: invoking the volatile `Store.UpdateMetricsBatch` directly with a
batch `pre ++ [bad] ++ post` where every item of `pre` has a supported kind
and `bad` has an unsupported kind returns the "unsupported metric type"
error, leaves every effect of `pre` applied (gauge items with a nil value
and counter items with a nil delta are skipped without error, as encoded in
`storeBatchLoop`), applies nothing of `post`, and performs no file flush. -/
theorem storeBatch_partial_application (F : Type) (s : Store F)
    (fs : FileSys F) (pre : List (MetricItem F)) (bad : MetricItem F)
    (post : List (MetricItem F))
    (hpre : ∀ m ∈ pre, m.MType = GaugeType ∨ m.MType = CounterType)
    (hbad1 : bad.MType ≠ GaugeType) (hbad2 : bad.MType ≠ CounterType) :
    (storeBatchLoop s pre).2 = none ∧
    storeUpdateMetricsBatch s fs (pre ++ bad :: post) =
      ((storeBatchLoop s pre).1, fs, some (.unsupportedType bad.MType)) := by
  obtain ⟨h1, h2⟩ := storeBatchLoop_append_bad bad post hbad1 hbad2 pre s hpre
  refine ⟨h1, ?_⟩
  rw [storeUpdateMetricsBatch, h2]

/-- Item `gauge g1 = 1`. -/
def itemG1 : MetricItem Int := ⟨"g1", "gauge", none, some 1⟩

/-- Item `counter c1` with a nil delta (skipped by the volatile batch). -/
def itemC1nil : MetricItem Int := ⟨"c1", "counter", none, none⟩

/-- Item of unsupported kind. -/
def itemBad : MetricItem Int := ⟨"h1", "histogram", some 1, some 1⟩

/-- Item `gauge g2 = 2`, placed after the failing item. -/
def itemG2 : MetricItem Int := ⟨"g2", "gauge", none, some 2⟩

/-! ### Service layer: `MetricsService.UpdateMetricsBatch`
(internal/services/metrics.go)

Items are `Option (MetricItem F)`: `none` models a nil `*model.Metrics`.
The Go function filters in place with `valid := metrics[:0]`, so the model
exposes the caller's backing array after the call. -/

/-- The validation of one item in the loop of
`MetricsService.UpdateMetricsBatch`: nil items, empty names, empty kinds,
unrecognized kinds, and gauge/counter items missing their value/delta are
rejected. -/
def svcValid {F : Type} (m : Option (MetricItem F)) : Bool :=
  match m with
  | none => false
  | some mm =>
    if mm.ID = "" ∨ mm.MType = "" then false
    else if mm.MType = GaugeType then mm.Value.isSome
    else if mm.MType = CounterType then mm.Delta.isSome
    else false

/-- The in-place filter `valid := metrics[:0]; for … append(valid, metric)`:
`a` is the backing array, `i` the loop index, `len` the length of `valid`.
`append` writes through to `a[len]` because the capacity suffices.  The
`fuel` parameter only bounds the recursion; the loop runs until `i`
reaches the length (fuel is instantiated with the list length). -/
def svcFilterLoop {α : Type} (pred : α → Bool) :
    Nat → List α → Nat → Nat → List α × Nat
  | 0, a, _, len => (a, len)
  | fuel + 1, a, i, len =>
    if h : i < a.length then
      if pred a[i] then svcFilterLoop pred fuel (a.set len a[i]) (i + 1) (len + 1)
      else svcFilterLoop pred fuel a (i + 1) len
    else (a, len)

/-- `MetricsService.UpdateMetricsBatch`: filter in place, short-circuit to
success on an empty validated list, otherwise hand `valid` (the first `len`
cells of the backing array) to the backend.  Returns the caller's backing
array together with the result. -/
def svcUpdateMetricsBatch {F : Type}
    (backend : List (Option (MetricItem F)) → Option DBErr)
    (metrics : List (Option (MetricItem F))) :
    List (Option (MetricItem F)) × Option DBErr :=
  let r := svcFilterLoop svcValid metrics.length metrics 0 0
  if r.2 = 0 then (r.1, none)
  else (r.1, backend (r.1.take r.2))

theorem set_length_append {α : Type} (w : List α) (y x : α) (t : List α) :
    (w ++ y :: t).set w.length x = w ++ x :: t := by
  induction w with
  | nil => rfl
  | cons a w ih => simp [List.set, ih]

theorem svcFilterLoop_spec {α : Type} (pred : α → Bool) (orig : List α) :
    ∀ (fuel i len : Nat) (a : List α),
      orig.length ≤ i + fuel →
      len ≤ i →
      len = ((orig.take i).filter pred).length →
      a = ((orig.take i).filter pred) ++ orig.drop len →
      svcFilterLoop pred fuel a i len =
        ((orig.filter pred) ++ orig.drop (orig.filter pred).length,
          (orig.filter pred).length) := by
  intro fuel
  induction fuel with
  | zero =>
    intro i len a hfuel hle hlen ha
    subst ha
    have hige : orig.length ≤ i := by omega
    have htake : orig.take i = orig := List.take_of_length_le hige
    rw [htake] at hlen
    rw [svcFilterLoop, htake, hlen]
  | succ fuel ih =>
    intro i len a hfuel hle hlen ha
    subst ha
    have hlenbound : len ≤ orig.length := by
      have h1 := List.length_filter_le pred (orig.take i)
      have h2 : (orig.take i).length = min i orig.length := List.length_take i orig
      omega
    have halen : (((orig.take i).filter pred) ++ orig.drop len).length =
        orig.length := by
      simp only [List.length_append, List.length_drop]
      omega
    by_cases hi : i < (((orig.take i).filter pred) ++ orig.drop len).length
    · have hio : i < orig.length := by omega
      have hwlen : ((orig.take i).filter pred).length = len := hlen.symm
      have hgeti : (((orig.take i).filter pred) ++ orig.drop len)[i] = orig[i] := by
        rw [List.getElem_append_right (by omega)]
        rw [List.getElem_drop]
        congr 1
        omega
      have htake1 : orig.take (i + 1) = orig.take i ++ [orig[i]] := by
        rw [List.take_succ, List.getElem?_eq_getElem hio]
        rfl
      rw [svcFilterLoop, dif_pos hi]
      simp only [hgeti]
      by_cases hp : pred orig[i]
      · rw [if_pos hp]
        have hfilter1 : (orig.take (i + 1)).filter pred =
            ((orig.take i).filter pred) ++ [orig[i]] := by
          rw [htake1, List.filter_append, List.filter_singleton, hp]
          rfl
        obtain ⟨y, t, hyt⟩ : ∃ y t, orig.drop len = y :: t := by
          cases hdl : orig.drop len with
          | nil =>
            exfalso
            have h8 : (orig.drop len).length = orig.length - len :=
              List.length_drop len orig
            rw [hdl] at h8
            simp at h8
            omega
          | cons y t => exact ⟨y, t, rfl⟩
        have hdt : orig.drop (len + 1) = t := by
          have h7 := congrArg (List.drop 1) hyt
          simp only [List.drop_drop] at h7
          simpa [Nat.add_comm] using h7
        have hset : (((orig.take i).filter pred) ++ orig.drop len).set len orig[i]
            = ((orig.take i).filter pred) ++ orig[i] :: orig.drop (len + 1) := by
          have h5 := set_length_append ((orig.take i).filter pred) y (orig[i]) t
          rw [hwlen] at h5
          rw [hyt, hdt]
          exact h5
        rw [hset]
        exact ih (i + 1) (len + 1)
          (((orig.take i).filter pred) ++ orig[i] :: orig.drop (len + 1))
          (by omega) (by omega)
          (by rw [hfilter1]; simp only [List.length_append, List.length_cons,
                List.length_nil]; omega)
          (by rw [hfilter1, List.append_assoc, List.singleton_append])
      · rw [if_neg hp]
        have hfilter1 : (orig.take (i + 1)).filter pred =
            (orig.take i).filter pred := by
          rw [htake1, List.filter_append, List.filter_singleton,
            Bool.of_not_eq_true hp]
          simp
        have h6 := ih (i + 1) len
          (((orig.take (i + 1)).filter pred) ++ orig.drop len)
          (by omega) (by omega)
          (by rw [hfilter1]; exact hlen) rfl
        rw [hfilter1] at h6
        exact h6
    · have hige : orig.length ≤ i := by omega
      have htake : orig.take i = orig := List.take_of_length_le hige
      rw [htake] at hlen
      rw [svcFilterLoop, dif_neg hi, htake, hlen]

theorem svcFilterLoop_eq {α : Type} (pred : α → Bool) (orig : List α) :
    svcFilterLoop pred orig.length orig 0 0 =
      ((orig.filter pred) ++ orig.drop (orig.filter pred).length,
        (orig.filter pred).length) :=
  svcFilterLoop_spec pred orig orig.length 0 0 orig (by omega) (by omega)
    (by simp) (by simp)

/-- C8: the service-level batch silently drops invalid items before the
backend, and an empty validated list short-circuits to success without
invoking the backend: the call's result is `none` when no item passes
validation, and the backend's answer on exactly the validated sublist
otherwise; an item passes validation iff it is non-nil and has a non-empty
name, a non-empty recognized kind, and a present value (gauge) or delta
(counter). -/
theorem svcBatch_validation_filtering (F : Type)
    (backend : List (Option (MetricItem F)) → Option DBErr)
    (metrics : List (Option (MetricItem F))) :
    (svcUpdateMetricsBatch backend metrics).2 =
      (if (metrics.filter svcValid).isEmpty then none
       else backend (metrics.filter svcValid)) ∧
    (∀ m : Option (MetricItem F), svcValid m = true ↔
      ∃ mm, m = some mm ∧ mm.ID ≠ "" ∧ mm.MType ≠ "" ∧
        ((mm.MType = GaugeType ∧ mm.Value.isSome = true) ∨
         (mm.MType = CounterType ∧ mm.Delta.isSome = true))) := by
  have hgne : ¬ GaugeType = "" := by decide
  have hcne : ¬ CounterType = "" := by decide
  have hcg : ¬ CounterType = GaugeType := by decide
  constructor
  · by_cases hnil : metrics.filter svcValid = []
    · simp [svcUpdateMetricsBatch, svcFilterLoop_eq, hnil]
    · have hlen0 : ¬ (metrics.filter svcValid).length = 0 := by
        simpa [List.length_eq_zero] using hnil
      have hie : (metrics.filter svcValid).isEmpty = false := by
        cases hfe : metrics.filter svcValid with
        | nil => exact absurd hfe hnil
        | cons x xs => rfl
      simp [svcUpdateMetricsBatch, svcFilterLoop_eq, hlen0, hie, List.take_left]
  · intro m
    cases m with
    | none => simp [svcValid]
    | some mm =>
      constructor
      · intro hv
        refine ⟨mm, rfl, ?_⟩
        by_cases hid : mm.ID = ""
        · simp [svcValid, hid] at hv
        · by_cases hty : mm.MType = ""
          · simp [svcValid, hid, hty] at hv
          · by_cases hg : mm.MType = GaugeType
            · refine ⟨hid, hty, Or.inl ⟨hg, ?_⟩⟩
              simpa [svcValid, hid, hty, hg, hgne] using hv
            · by_cases hc : mm.MType = CounterType
              · refine ⟨hid, hty, Or.inr ⟨hc, ?_⟩⟩
                simpa [svcValid, hid, hty, hg, hc, hcne, hcg] using hv
              · simp [svcValid, hid, hty, hg, hc] at hv
      · rintro ⟨mm2, heq, hid, hty, hcase⟩
        injection heq with h
        subst h
        rcases hcase with ⟨hg, hval⟩ | ⟨hc, hdel⟩
        · simp [svcValid, hid, hty, hg, hval, hgne]
        · have hg : mm.MType ≠ GaugeType := by
            rw [hc]; decide
          simp [svcValid, hid, hty, hg, hc, hdel, hcne, hcg]

/-- C9: the service-level batch filters the caller's slice in place
(`valid := metrics[:0]`): after the call the backing array holds the
validated items in its first `k` cells (`k` the number of items that passed)
followed by the untouched tail of the original list, so the caller's input
is mutated rather than left unchanged. -/
theorem svcBatch_in_place_filter (F : Type)
    (backend : List (Option (MetricItem F)) → Option DBErr)
    (metrics : List (Option (MetricItem F))) :
    (svcUpdateMetricsBatch backend metrics).1 =
      metrics.filter svcValid ++ metrics.drop (metrics.filter svcValid).length ∧
    ((svcUpdateMetricsBatch backend metrics).1).take
        (metrics.filter svcValid).length = metrics.filter svcValid ∧
    ((svcUpdateMetricsBatch backend metrics).1).length = metrics.length := by
  have h1 : (svcUpdateMetricsBatch backend metrics).1 =
      metrics.filter svcValid ++ metrics.drop (metrics.filter svcValid).length := by
    simp only [svcUpdateMetricsBatch]
    rw [svcFilterLoop_eq]
    split <;> rfl
  refine ⟨h1, ?_, ?_⟩
  · rw [h1, List.take_left]
  · rw [h1]
    simp only [List.length_append, List.length_drop]
    have := List.length_filter_le svcValid metrics
    omega

/-- Witness for C10 at a concrete batch. -/
theorem storeBatch_partial_application_witness :
    (storeBatchLoop (initStore Int "" 0) [itemG1, itemC1nil]).2 = none ∧
    storeUpdateMetricsBatch (initStore Int "" 0) (fun _ => none)
      ([itemG1, itemC1nil] ++ itemBad :: [itemG2]) =
      ((storeBatchLoop (initStore Int "" 0) [itemG1, itemC1nil]).1,
        (fun _ => none), some (.unsupportedType itemBad.MType)) :=
  storeBatch_partial_application Int (initStore Int "" 0) (fun _ => none)
    [itemG1, itemC1nil] itemBad [itemG2]
    (by decide) (by decide) (by decide)

/-! ### Relational `PostgresStore` (internal/db/postgres.go)

The connection to the external database is modelled by environments: a
`ConnEnv` decides how `sql.Open`/`PingContext`/`CREATE TABLE` behave during
`ensureConnected`, and a `TxEnv` decides whether `Begin`, each upsert
statement, and `Commit` fail.  The committed table is a map keyed by
`(name, mtype)`. -/

/-- One row of the `metrics` table: nullable `delta` and `value` columns. -/
structure Row (F : Type) where
  delta : Option Int
  value : Option F

/-- The `metrics` table, keyed by the unique pair `(name, mtype)`. -/
def Table (F : Type) : Type := String × String → Option (Row F)

/-- Point update of the table. -/
def tableSet {F : Type} (t : Table F) (k : String × String) (r : Row F) :
    Table F :=
  fun q => if q = k then some r else t q

/-- The gauge upsert
`INSERT … (name, mtype, value) VALUES (n, 'gauge', v)
 ON CONFLICT (name, mtype) DO UPDATE SET value = v`:
on conflict only `value` changes; a fresh row has a NULL `delta`. -/
def upsertGaugeRow {F : Type} (t : Table F) (name : String) (v : Option F) :
    Table F :=
  match t (name, GaugeType) with
  | some r => tableSet t (name, GaugeType) { r with value := v }
  | none => tableSet t (name, GaugeType) { delta := none, value := v }

/-- SQL addition with NULL propagation (`NULL + x = NULL`).  BIGINT
overflow raises in the database and is outside the model. -/
def sqlAdd : Option Int → Option Int → Option Int
  | some a, some b => some (a + b)
  | _, _ => none

/-- The counter upsert
`INSERT … (name, mtype, delta) VALUES (n, 'counter', d)
 ON CONFLICT (name, mtype) DO UPDATE SET delta = metrics.delta + d`. -/
def upsertCounterRow {F : Type} (t : Table F) (name : String)
    (d : Option Int) : Table F :=
  match t (name, CounterType) with
  | some r => tableSet t (name, CounterType) { r with delta := sqlAdd r.delta d }
  | none => tableSet t (name, CounterType) { delta := d, value := none }

/-- The upsert a batch item maps to (its kind chooses the statement). -/
def applyUpsert {F : Type} (t : Table F) (m : MetricItem F) : Table F :=
  if m.MType = GaugeType then upsertGaugeRow t m.ID m.Value
  else if m.MType = CounterType then upsertCounterRow t m.ID m.Delta
  else t

/-- Connection-relevant state of `PostgresStore`: the DSN, whether the
pool handle is non-nil (`db != nil`), and the `connected` flag. -/
structure PgState where
  dsn : String
  dbOpen : Bool
  connected : Bool
deriving DecidableEq, Repr

/-- `PostgresStore.resetConnection`: close and discard the pool, clear the
flag. -/
def resetConnection (st : PgState) : PgState :=
  { st with dbOpen := false, connected := false }

/-- Environment for one `ensureConnected` run: the outcomes of
`sql.Open`, the 5-second `PingContext` and `CREATE TABLE IF NOT EXISTS`. -/
structure ConnEnv where
  openErr : Option String
  pingErr : Option String
  createErr : Option String

/-- `PostgresStore.ensureConnected`: already connected is a no-op; an empty
DSN reports `ErrNotConnected` without opening anything; otherwise open,
ping and create the table, failing (and closing the fresh pool) at the
first error, or mark the store connected. -/
def ensureConnected (env : ConnEnv) (st : PgState) : PgState × Option DBErr :=
  if st.connected then (st, none)
  else if st.dsn = "" then (st, some .notConnected)
  else
    match env.openErr with
    | some msg => (st, some (.wrapped "failed to open database: " (.other msg)))
    | none =>
      match env.pingErr with
      | some msg => (st, some (.wrapped "database ping failed: " (.other msg)))
      | none =>
        match env.createErr with
        | some msg => (st, some (.wrapped "failed to create table: " (.other msg)))
        | none => ({ st with dbOpen := true, connected := true }, none)

/-- One attempt of `PostgresStore.SetGauge` (the closure handed to the
retry policy): ensure-connected, execute the upsert, and on a
connection-class statement error reset the connection before returning
the error. -/
def pgSetGaugeAttempt (cenv : ConnEnv) (execErr : Option DBErr)
    (st : PgState) : PgState × Option DBErr :=
  match ensureConnected cenv st with
  | (st1, some e) => (st1, some e)
  | (st1, none) =>
    match execErr with
    | none => (st1, none)
    | some e => (if connClass e then resetConnection st1 else st1, some e)

/-- One attempt of `PostgresStore.SetCounter`: ensure-connected, execute
the upsert, and return its error unchanged — no connection reset. -/
def pgSetCounterAttempt (cenv : ConnEnv) (execErr : Option DBErr)
    (st : PgState) : PgState × Option DBErr :=
  match ensureConnected cenv st with
  | (st1, some e) => (st1, some e)
  | (st1, none) => (st1, execErr)

/-- `PostgresStore.SetGauge` = `withPGRetry` over the attempt closure; the
environments are indexed by the attempt number. -/
def pgSetGauge (cenv : Nat → ConnEnv) (execErr : Nat → Option DBErr)
    (st : PgState) : PgState × Option DBErr :=
  withRetryS (fun n s => pgSetGaugeAttempt (cenv n) (execErr n) s) isRetriable st

/-- `PostgresStore.SetCounter` = `withPGRetry` over the attempt closure. -/
def pgSetCounter (cenv : Nat → ConnEnv) (execErr : Nat → Option DBErr)
    (st : PgState) : PgState × Option DBErr :=
  withRetryS (fun n s => pgSetCounterAttempt (cenv n) (execErr n) s) isRetriable st

/-- Environment for one transaction of `UpdateMetricsBatch`: outcomes of
`BeginTx`, of the k-th executed statement, and of `Commit`. -/
structure TxEnv where
  beginErr : Option DBErr
  execErrs : Nat → Option DBErr
  commitErr : Option DBErr

/-- The statement loop of `PostgresStore.UpdateMetricsBatch`, acting on the
transaction's pending view of the table (`k` counts executed statements):
gauge and counter items execute their upsert, an unsupported kind stops the
loop with an error, a failed statement stops it with the wrapped error. -/
def pgBatchLoop {F : Type} (execErrs : Nat → Option DBErr) :
    List (MetricItem F) → Table F → Nat → Table F × Option DBErr
  | [], pending, _ => (pending, none)
  | m :: rest, pending, k =>
    if m.MType = GaugeType then
      match execErrs k with
      | some e =>
        (pending, some (.wrapped ("exec update for " ++ m.ID ++ ": ") e))
      | none => pgBatchLoop execErrs rest (upsertGaugeRow pending m.ID m.Value) (k + 1)
    else if m.MType = CounterType then
      match execErrs k with
      | some e =>
        (pending, some (.wrapped ("exec update for " ++ m.ID ++ ": ") e))
      | none => pgBatchLoop execErrs rest (upsertCounterRow pending m.ID m.Delta) (k + 1)
    else (pending, some (.unsupportedType m.MType))

/-- One attempt of `PostgresStore.UpdateMetricsBatch`: ensure-connected,
begin a single transaction, run the statement loop, and commit only when
every statement succeeded; any error takes the deferred `tx.Rollback()`
path, leaving the committed table untouched.  The connection state is never
reset here. -/
def pgUpdateMetricsBatchAttempt {F : Type} (cenv : ConnEnv) (tenv : TxEnv)
    (st : PgState) (table : Table F) (items : List (MetricItem F)) :
    PgState × Table F × Option DBErr :=
  match ensureConnected cenv st with
  | (st1, some e) => (st1, table, some e)
  | (st1, none) =>
    match tenv.beginErr with
    | some e => (st1, table, some (.wrapped "begin transaction: " e))
    | none =>
      match pgBatchLoop tenv.execErrs items table 0 with
      | (_, some e) => (st1, table, some e)
      | (pending, none) =>
        match tenv.commitErr with
        | some e => (st1, table, some (.wrapped "commit transaction: " e))
        | none => (st1, pending, none)

/-- `PostgresStore.Ping`: ensure-connected (masking its failure as
`ErrNotConnected`), re-check the flag, then probe the pool. -/
def pgPing (cenv : ConnEnv) (probeErr : Option DBErr) (st : PgState) :
    PgState × Option DBErr :=
  match ensureConnected cenv st with
  | (st1, some _) => (st1, some .notConnected)
  | (st1, none) =>
    if st1.connected then (st1, probeErr)
    else (st1, some .notConnected)

/-! ### Claim C3: relational batch atomicity -/

theorem pgBatchLoop_ok {F : Type} (execErrs : Nat → Option DBErr) :
    ∀ (items : List (MetricItem F)) (t : Table F) (k : Nat) (t2 : Table F),
      pgBatchLoop execErrs items t k = (t2, none) →
      t2 = items.foldl applyUpsert t := by
  have hCG : ¬ CounterType = GaugeType := by decide
  intro items
  induction items with
  | nil =>
    intro t k t2 h
    simp only [pgBatchLoop, Prod.mk.injEq] at h
    simp [h.1.symm]
  | cons m rest ih =>
    intro t k t2 h
    by_cases hg : m.MType = GaugeType
    · rw [pgBatchLoop] at h
      simp only [hg, if_true] at h
      cases hek : execErrs k with
      | some e => rw [hek] at h; simp at h
      | none =>
        rw [hek] at h
        have h4 := ih (upsertGaugeRow t m.ID m.Value) (k + 1) t2 h
        simp [List.foldl_cons, applyUpsert, hg, h4]
    · by_cases hc : m.MType = CounterType
      · rw [pgBatchLoop] at h
        simp only [hg, hc, if_true, if_false] at h
        cases hek : execErrs k with
        | some e => rw [hek] at h; simp at h
        | none =>
          rw [hek] at h
          have h4 := ih (upsertCounterRow t m.ID m.Delta) (k + 1) t2 h
          simp [List.foldl_cons, applyUpsert, hg, hc, hCG, h4]
      · rw [pgBatchLoop] at h
        simp [hg, hc] at h

theorem pgBatchLoop_unsupported {F : Type} (execErrs : Nat → Option DBErr) :
    ∀ (items : List (MetricItem F)) (t : Table F) (k : Nat) (m : MetricItem F),
      m ∈ items → m.MType ≠ GaugeType → m.MType ≠ CounterType →
      (pgBatchLoop execErrs items t k).2 ≠ none := by
  intro items
  induction items with
  | nil => intro t k m hm; cases hm
  | cons m0 rest ih =>
    intro t k m hm h1 h2
    rcases List.mem_cons.mp hm with rfl | hmem
    · simp [pgBatchLoop, h1, h2]
    · by_cases hg : m0.MType = GaugeType
      · cases hek : execErrs k with
        | some e => simp [pgBatchLoop, hg, hek]
        | none =>
          simpa [pgBatchLoop, hg, hek] using
            ih (upsertGaugeRow t m0.ID m0.Value) (k + 1) m hmem h1 h2
      · by_cases hc : m0.MType = CounterType
        · cases hek : execErrs k with
          | some e => simp [pgBatchLoop, hg, hc, hek]
          | none =>
            simpa [pgBatchLoop, hg, hc, hek] using
              ih (upsertCounterRow t m0.ID m0.Delta) (k + 1) m hmem h1 h2
        · simp [pgBatchLoop, hg, hc]

/-- C3: one transaction of the relational `UpdateMetricsBatch` is atomic:
whenever it reports an error (a failed begin/statement/commit or an item of
unsupported kind), the committed table is left exactly as it was — none of
the items' effects are applied — and on success the table is exactly the
fold of one upsert per item; a batch containing an item of unsupported
kind never commits. -/
theorem pgBatch_atomicity (F : Type) (cenv : ConnEnv) (tenv : TxEnv)
    (st : PgState) (table : Table F) (items : List (MetricItem F)) :
    (∀ e, (pgUpdateMetricsBatchAttempt cenv tenv st table items).2.2 = some e →
      (pgUpdateMetricsBatchAttempt cenv tenv st table items).2.1 = table) ∧
    ((pgUpdateMetricsBatchAttempt cenv tenv st table items).2.2 = none →
      (pgUpdateMetricsBatchAttempt cenv tenv st table items).2.1 =
        items.foldl applyUpsert table) ∧
    (∀ m ∈ items, m.MType ≠ GaugeType → m.MType ≠ CounterType →
      (pgUpdateMetricsBatchAttempt cenv tenv st table items).2.2 ≠ none) := by
  rcases hec : ensureConnected cenv st with ⟨st1, eopt⟩
  unfold pgUpdateMetricsBatchAttempt
  rw [hec]
  cases eopt with
  | some e0 =>
    dsimp only
    exact ⟨fun e _ => rfl, fun h => Option.noConfusion h,
      fun m hm h1 h2 h => Option.noConfusion h⟩
  | none =>
    dsimp only
    cases hbe : tenv.beginErr with
    | some e0 =>
      exact ⟨fun e _ => rfl, fun h => Option.noConfusion h,
        fun m hm h1 h2 h => Option.noConfusion h⟩
    | none =>
      rcases hloop : pgBatchLoop tenv.execErrs items table 0 with ⟨pending, lopt⟩
      cases lopt with
      | some e0 =>
        exact ⟨fun e _ => rfl, fun h => Option.noConfusion h,
          fun m hm h1 h2 h => Option.noConfusion h⟩
      | none =>
        cases hce : tenv.commitErr with
        | some e0 =>
          exact ⟨fun e _ => rfl, fun h => Option.noConfusion h,
            fun m hm h1 h2 h => Option.noConfusion h⟩
        | none =>
          refine ⟨fun e h => Option.noConfusion h, fun _ => ?_,
            fun m hm h1 h2 h => ?_⟩
          · exact pgBatchLoop_ok tenv.execErrs items table 0 pending hloop
          · exact pgBatchLoop_unsupported tenv.execErrs items table 0 m hm h1 h2
              (by rw [hloop])

/-- Environment where open/ping/create-table all succeed. -/
def cenvAllOk : ConnEnv := { openErr := none, pingErr := none, createErr := none }

/-- Transaction environment with no injected failures. -/
def txOkEnv : TxEnv := { beginErr := none, execErrs := fun _ => none, commitErr := none }

/-- Transaction environment whose statements fail with `sql.ErrConnDone`. -/
def txFailEnv : TxEnv :=
  { beginErr := none, execErrs := fun _ => some .connDone, commitErr := none }

/-- A connected relational store. -/
def pgConnState : PgState := { dsn := "postgres://db", dbOpen := true, connected := true }

/-- An empty committed table. -/
def tEmpty : Table Int := fun _ => none

/-- Item `gauge g3 = 4` for the relational batch witness. -/
def itemG3 : MetricItem Int := ⟨"g3", "gauge", none, some 4⟩

/-- Witness for C3: a failing statement leaves the table untouched, a clean
run applies the upsert fold. -/
theorem pgBatch_atomicity_witness :
    (pgUpdateMetricsBatchAttempt cenvAllOk txFailEnv pgConnState tEmpty
      [itemG3]).2.1 = tEmpty ∧
    (pgUpdateMetricsBatchAttempt cenvAllOk txOkEnv pgConnState tEmpty
      [itemG3]).2.1 = [itemG3].foldl applyUpsert tEmpty := by
  constructor
  · exact (pgBatch_atomicity Int cenvAllOk txFailEnv pgConnState tEmpty [itemG3]).1
      (.wrapped ("exec update for " ++ "g3" ++ ": ") .connDone) rfl
  · exact (pgBatch_atomicity Int cenvAllOk txOkEnv pgConnState tEmpty [itemG3]).2.1 rfl

/-! ### Claim C4: connection reset on write failure -/

/-- Counterexample to C4 as stated: `SetCounter` is a write operation of the
relational store, `sql.ErrConnDone` is a connection-class error by the
store's own classifier, yet after the call the store is still Connected —
only `SetGauge` resets on statement failure. -/
theorem pgSetCounter_no_reset_counterexample :
    connClass .connDone = true ∧
    pgSetCounter (fun _ => cenvAllOk) (fun _ => some .connDone) pgConnState =
      (pgConnState, some .connDone) ∧
    pgConnState.connected = true ∧ pgConnState.dbOpen = true := by
  exact ⟨rfl, rfl, rfl, rfl⟩

/-- C4 amended: on a connected store, a connection-class statement failure
in `SetGauge` resets the connection (pool discarded, flag cleared) before
the error is returned; `SetCounter` returns its statement error without
resetting; one `UpdateMetricsBatch` transaction never changes the
connection state. -/
theorem pg_write_reset_policy (cenv : ConnEnv) (e : DBErr) (st : PgState)
    (hconn : st.connected = true) :
    (connClass e = true →
      pgSetGaugeAttempt cenv (some e) st = (resetConnection st, some e)) ∧
    pgSetCounterAttempt cenv (some e) st = (st, some e) ∧
    (∀ (F : Type) (tenv : TxEnv) (table : Table F) (items : List (MetricItem F)),
      (pgUpdateMetricsBatchAttempt cenv tenv st table items).1 = st) := by
  have hec : ensureConnected cenv st = (st, none) := by
    simp [ensureConnected, hconn]
  refine ⟨?_, ?_, ?_⟩
  · intro hcc
    simp [pgSetGaugeAttempt, hec, hcc]
  · simp [pgSetCounterAttempt, hec]
  · intro F tenv table items
    simp only [pgUpdateMetricsBatchAttempt, hec]
    cases tenv.beginErr with
    | some e0 => rfl
    | none =>
      rcases h : pgBatchLoop tenv.execErrs items table 0 with ⟨pending, lopt⟩
      cases lopt with
      | some e0 => simp [h]
      | none =>
        cases tenv.commitErr with
        | some e0 => simp [h]
        | none => simp [h]

/-- Witness for C4 (amended) on a concrete connected store with
`sql.ErrConnDone`. -/
theorem pg_write_reset_policy_witness :
    pgSetGaugeAttempt cenvAllOk (some .connDone) pgConnState =
      (resetConnection pgConnState, some .connDone) ∧
    pgSetCounterAttempt cenvAllOk (some .connDone) pgConnState =
      (pgConnState, some .connDone) ∧
    (pgUpdateMetricsBatchAttempt cenvAllOk txFailEnv pgConnState tEmpty
      [itemG3]).1 = pgConnState := by
  refine ⟨?_, ?_, ?_⟩
  · exact (pg_write_reset_policy cenvAllOk .connDone pgConnState rfl).1 rfl
  · exact (pg_write_reset_policy cenvAllOk .connDone pgConnState rfl).2.1
  · exact (pg_write_reset_policy cenvAllOk .connDone pgConnState rfl).2.2
      Int txFailEnv tEmpty [itemG3]

/-! ### Claim C5: `Ping` without side effects -/

/-- A not-connected relational store with a configured DSN. -/
def pgNotConnState : PgState :=
  { dsn := "postgres://db", dbOpen := false, connected := false }

/-- Counterexample to C5 as stated: on a not-connected store whose DSN is
non-empty, `Ping` does attempt to connect — `ensureConnected` opens the
pool and creates the table, the state changes to Connected, and no
"not connected" error is reported. -/
theorem pgPing_connects_counterexample :
    pgNotConnState.connected = false ∧
    pgPing cenvAllOk none pgNotConnState =
      ({ pgNotConnState with dbOpen := true, connected := true }, none) := by
  exact ⟨rfl, rfl⟩

/-- C5 amended: only a store that is not connected and has an empty DSN
reports the distinguished "not connected" error from `Ping` without any
connection attempt, leaving its state unchanged; with a configured DSN the
ensure-connected step attempts a real connection. -/
theorem pgPing_empty_dsn_no_side_effects (cenv : ConnEnv)
    (probeErr : Option DBErr) (st : PgState)
    (hnc : st.connected = false) (hdsn : st.dsn = "") :
    pgPing cenv probeErr st = (st, some .notConnected) := by
  have hec : ensureConnected cenv st = (st, some .notConnected) := by
    simp [ensureConnected, hnc, hdsn]
  simp [pgPing, hec]

/-- A never-configured relational store (empty DSN). -/
def pgEmptyDsnState : PgState := { dsn := "", dbOpen := false, connected := false }

/-- Witness for C5 (amended) at the empty-DSN store. -/
theorem pgPing_empty_dsn_no_side_effects_witness :
    pgPing cenvAllOk none pgEmptyDsnState = (pgEmptyDsnState, some .notConnected) :=
  pgPing_empty_dsn_no_side_effects cenvAllOk none pgEmptyDsnState rfl rfl

end Metrics
